import Mathlib

/-!
Shallow embedding of the data-derivation core of the college-basketball
shot-chart application (source: `map_app_2.py`).

The two base tables (play-by-play events and player box-score rows) are
modelled as lists of records held in a `Data` value.  Pandas columns that can
hold `NaN` are modelled with `Option`; a numeric cell that may be stored
either as an integer-like or as a floating value is modelled with `PandasNum`.
`groupby(...).last()` is modelled per column as the last non-null entry of the
group, which is what pandas computes.  A pandas left merge produces, for each
left row, one output row per matching right row, or a single row with a null
name when nothing matches.  Computations that can raise an uncaught Python
exception are modelled with `Option`/`Except`, where `none`/`Except.error`
marks the raising branch.
-/

namespace CbbShotCharts

/-- A numeric cell as stored by pandas: either an integer-like value or a
floating value carrying the same whole number.  `athlete_id` cells are whole
numbers, so a float cell is carried by its integer payload. -/
inductive PandasNum where
  | i (n : Int)
  | f (n : Int)
deriving DecidableEq

/-- The whole number denoted by a numeric cell, independent of representation. -/
def PandasNum.val : PandasNum → Int
  | .i n => n
  | .f n => n

/-- `astype(float)` applied to a numeric cell: both representations become the
floating one. -/
def PandasNum.toFloat : PandasNum → PandasNum
  | .i n => .f n
  | .f n => .f n

/-- A calendar date, the payload of the `game_date` column. -/
structure Date where
  y : Nat
  m : Nat
  d : Nat
deriving DecidableEq

/-- Chronological comparison of dates (the order used by pandas when sorting a
datetime column). -/
def Date.leB (a b : Date) : Bool :=
  if a.y < b.y then true
  else if b.y < a.y then false
  else if a.m < b.m then true
  else if b.m < a.m then false
  else a.d ≤ b.d

/-- Left-pad a numeral to two digits, as `strftime` does for `%m` and `%d`. -/
def pad2 (n : Nat) : String :=
  if n < 10 then "0" ++ toString n else toString n

/-- Left-pad a numeral to four digits, as `strftime` does for `%Y`. -/
def pad4 (n : Nat) : String :=
  if n < 10 then "000" ++ toString n
  else if n < 100 then "00" ++ toString n
  else if n < 1000 then "0" ++ toString n
  else toString n

/-- `strftime("%m/%d/%Y")`: the display form of a game date. -/
def fmtDate (dt : Date) : String :=
  pad2 dt.m ++ "/" ++ pad2 dt.d ++ "/" ++ pad4 dt.y

/-- Code-point comparison of character lists, the order Python uses when
comparing strings. -/
def lexLe : List Char → List Char → Bool
  | [], _ => true
  | _ :: _, [] => false
  | a :: as, b :: bs =>
    if a.toNat < b.toNat then true
    else if b.toNat < a.toNat then false
    else lexLe as bs

/-- Python string comparison `s <= t`. -/
def strLeB (s t : String) : Bool :=
  lexLe s.data t.data

/-- Is `n` a leading segment of `l`? -/
def leadB : List Char → List Char → Bool
  | [], _ => true
  | _ :: _, [] => false
  | a :: as, b :: bs => a == b && leadB as bs

/-- Is `n` a contiguous segment of `l`?  Models the Python `in` test on
strings once both sides are reduced to character lists. -/
def subLB (n : List Char) : List Char → Bool
  | [] => n.isEmpty
  | c :: t => leadB n (c :: t) || subLB n t

/-- Python `str.lower()`, computed on the character list (ASCII letters are
mapped to lower case). -/
def lowerStr (s : String) : String :=
  ⟨s.data.map Char.toLower⟩

/-- Case-insensitive substring test, modelling
`Series.str.contains(needle, case=False)` on one cell. -/
def containsCI (hay needle : String) : Bool :=
  subLB (lowerStr needle).data (lowerStr hay).data

/-- Case-sensitive substring test, modelling Python `needle in hay`. -/
def substrB (needle hay : String) : Bool :=
  subLB needle.data hay.data

/-- Worker for `dedupF`: keep the elements not yet seen, in order. -/
def dedupAux {α : Type} [DecidableEq α] : List α → List α → List α
  | _, [] => []
  | seen, a :: as =>
    if a ∈ seen then dedupAux seen as else a :: dedupAux (a :: seen) as

/-- Remove duplicates keeping the first occurrence of every value, which is
what `drop_duplicates` and `Series.unique` do. -/
def dedupF {α : Type} [DecidableEq α] (l : List α) : List α :=
  dedupAux [] l

/-- The last non-null entry of a column, which is what `groupby(...).last()`
computes for each column of each group. -/
def lastNonNull {α : Type} (l : List (Option α)) : Option α :=
  (l.filterMap id).getLast?

/-- One play-by-play row (table `pbp_df`).  Game-level columns
(`game_id`, team identifiers and names, `game_date`) are present on every
row; running scores, the acting player, the acting team and the event-type
label can be null. -/
structure PlayEvent where
  game_id : Int
  game_date : Date
  home_team_id : Int
  away_team_id : Int
  home_team_name : String
  away_team_name : String
  home_score : Option Int
  away_score : Option Int
  athlete_id_1 : Option PandasNum
  team_id : Option Int
  type_text : Option String
  shooting_play : Bool
  scoring_play : Bool
  coordinate_x : Option Int
  coordinate_y : Option Int
deriving DecidableEq

/-- One box-score row (table `box_df`), one row per (game, player). -/
structure BoxRow where
  game_id : Int
  athlete_id : PandasNum
  athlete_display_name : String
  team_id : Int
  team_display_name : Option String
deriving DecidableEq

/-- The two base tables, loaded once at startup and never mutated. -/
structure Data where
  pbp : List PlayEvent
  box : List BoxRow
deriving DecidableEq

/-- A play-by-play row after the left merge with the name table: the event
plus the merged `athlete_display_name`, which is null when no name matched. -/
structure ShotRow where
  ev : PlayEvent
  name : Option String
deriving DecidableEq

/-- One output record of `get_team_games`: the per-game aggregation of the
filtered play-by-play rows. -/
structure GameInfo where
  game_id : Int
  game_date : Date
  home_team_name : String
  away_team_name : String
  home_score : Option Int
  away_score : Option Int
  home_team_id : Int
  away_team_id : Int
deriving DecidableEq

/-- One entry of the `/api/games` response. -/
structure GameCard where
  game_id : Int
  date : String
  opponent : String
  location : String
  score : String
deriving DecidableEq

/-- One entry of the `/api/players` response. -/
structure PlayerEntry where
  player_id : Nat
  name : String
  shots : Nat
  makes : Nat
  percentage : ℚ
deriving DecidableEq

/-- One entry of the `/api/player-games` response. -/
structure PGEntry where
  game_id : Int
  date : String
  opponent : String
  location : String
  score : String
  shots : Nat
  makes : Nat
deriving DecidableEq

/-- One entry of the `/api/search-player` response. -/
structure SearchResult where
  player_name : String
  team_name : String
  team_id : Int
  total_games : Nat
  total_shots : Nat
  total_makes : Nat
deriving DecidableEq

/-- The statistics block of the season-chart response. -/
structure SeasonStats where
  makes : Nat
  misses : Nat
  total : Nat
  percentage : ℚ
  games : Nat
deriving DecidableEq

/-- The season-chart response: the chart title and the statistics block. -/
structure SeasonChart where
  title : String
  stats : SeasonStats
deriving DecidableEq

/-- The statistics block of the single-game shot-chart response. -/
structure ChartStats where
  makes : Nat
  misses : Nat
  total : Nat
  percentage : ℚ
deriving DecidableEq

/-- How a single-game shot-chart request can fail: `indexError` is the
uncaught exception from `.iloc[0]` on an empty selection, `noShots` is the
explicit 404 response, `valueError` is the uncaught exception from converting
a missing opponent score to an integer while building the chart title. -/
inductive ChartErr where
  | indexError
  | noShots
  | valueError
deriving DecidableEq

/-- Does the team appear on this row as the home or the away side?  The
filter of `get_team_games`. -/
def teamSide (tid : Int) (e : PlayEvent) : Bool :=
  e.home_team_id == tid || e.away_team_id == tid

/-- Chronological order on game records, lifted from the `game_date` column. -/
abbrev giLe (a b : GameInfo) : Prop :=
  Date.leB a.game_date b.game_date = true

/-- Python string order, as a relation for sorting. -/
abbrev strLe (s t : String) : Prop :=
  strLeB s t = true

/-- Order on player-game entries by their formatted date string, the key of
the final `sorted(results, key=...)` call of `get_player_games`. -/
abbrev pgLe (a b : PGEntry) : Prop :=
  strLeB a.date b.date = true

/-- The per-game aggregation of one group of filtered rows: each column takes
its last non-null value within the group.  Columns that are never null take
the value of the last row of the group. -/
def buildInfo (gid : Int) (group : List PlayEvent) : GameInfo :=
  { game_id := gid
    game_date := (group.map (·.game_date)).getLastD ⟨0, 0, 0⟩
    home_team_name := (group.map (·.home_team_name)).getLastD ""
    away_team_name := (group.map (·.away_team_name)).getLastD ""
    home_score := lastNonNull (group.map (·.home_score))
    away_score := lastNonNull (group.map (·.away_score))
    home_team_id := (group.map (·.home_team_id)).getLastD 0
    away_team_id := (group.map (·.away_team_id)).getLastD 0 }

/-- `get_team_games`: filter the play-by-play rows to those where the team
appears as home or away, group by game identifier (pandas sorts the groups by
key), aggregate each group with `.last()`, and sort the records by date. -/
def get_team_games (data : Data) (tid : Int) : List GameInfo :=
  let rows := data.pbp.filter (teamSide tid)
  let gids := List.insertionSort (α := Int) (· ≤ ·) (dedupF (rows.map (·.game_id)))
  let records := gids.map (fun gid => buildInfo gid (rows.filter (·.game_id == gid)))
  List.insertionSort giLe records

/-- The deduplicated name table built inside `get_player_shots`: (identifier,
display name) pairs of the box rows of one game, with the identifier cast to
float. -/
def namesOf (data : Data) (gid : Int) : List (PandasNum × String) :=
  dedupF ((data.box.filter (·.game_id == gid)).map
    (fun b => (b.athlete_id.toFloat, b.athlete_display_name)))

/-- The play-by-play rows of one game. -/
def eventsOf (data : Data) (gid : Int) : List PlayEvent :=
  data.pbp.filter (·.game_id == gid)

/-- The pandas left merge of the name table onto the play-by-play rows, keyed
by `athlete_id_1`: each event yields one row per matching name pair, or a
single row with a null name when no pair matches (a null key matches
nothing). -/
def mergeNames (events : List PlayEvent) (names : List (PandasNum × String)) :
    List ShotRow :=
  events.flatMap (fun e =>
    let ms := names.filter (fun p => e.athlete_id_1 == some p.1)
    match ms with
    | [] => [⟨e, none⟩]
    | _ :: _ => ms.map (fun p => ⟨e, some p.2⟩))

/-- The row filter of `get_player_shots`: the acting team matches, the row is
a shooting play, and the event-type label does not contain a free-throw
marker (a null label passes, since `contains(..., na=False)` maps null to
`False`). -/
def shotKeep (tid : Int) (s : ShotRow) : Bool :=
  s.ev.team_id == some tid && s.ev.shooting_play &&
    !containsCI (s.ev.type_text.getD "") "FreeThrow"

/-- `get_player_shots`: join box-score names onto the play-by-play rows of one
game, filter to the field-goal attempts of one team, and also return the
deduplicated roster of that team in that game. -/
def get_player_shots (data : Data) (gid tid : Int) :
    List ShotRow × List (PandasNum × String) :=
  let team_shots := (mergeNames (eventsOf data gid) (namesOf data gid)).filter
    (shotKeep tid)
  let team_players := dedupF
    (((data.box.filter (·.game_id == gid)).filter (·.team_id == tid)).map
      (fun b => (b.athlete_id, b.athlete_display_name)))
  (team_shots, team_players)

/-- The alphabetically sorted, deduplicated list of roster display names used
by `get_players`. -/
def rosterNames (data : Data) (gid tid : Int) : List String :=
  List.insertionSort strLe
    (dedupF ((get_player_shots data gid tid).2.map Prod.snd))

/-- One per-player entry of `get_players`: the rows of the team shot set with
this display name, counted. -/
def playerEntryOf (team_shots : List ShotRow) (p : Nat × String) : PlayerEntry :=
  let pshots := team_shots.filter (fun s => s.name == some p.2)
  let sc := pshots.length
  let mk := (pshots.filter (fun s => s.ev.scoring_play)).length
  ⟨p.1, p.2, sc, mk, if 0 < sc then (mk : ℚ) / sc * 100 else 0⟩

/-- `get_players` (`/api/players`): the synthetic Team View aggregate followed
by one entry per roster name, each with shot count, make count and
percentage (0 when the shot count is 0). -/
def get_players (data : Data) (gid tid : Int) : List PlayerEntry :=
  let team_shots := (get_player_shots data gid tid).1
  let total_shots := team_shots.length
  let total_makes := (team_shots.filter (fun s => s.ev.scoring_play)).length
  let tv : PlayerEntry :=
    ⟨0, "Team View", total_shots, total_makes,
      if 0 < total_shots then (total_makes : ℚ) / total_shots * 100 else 0⟩
  tv :: ((rosterNames data gid tid).enumFrom 1).map (playerEntryOf team_shots)

/-- The shots of one player in one game: the team shot set restricted to rows
whose merged display name equals the player name. -/
def playerShotsIn (data : Data) (gid tid : Int) (pname : String) :
    List ShotRow :=
  (get_player_shots data gid tid).1.filter (fun s => s.name == some pname)

/-- The distinct games referenced by the box-score rows of one (team, player)
pair, in order of first occurrence (`Series.unique`). -/
def uniqueGids (data : Data) (tid : Int) (pname : String) : List Int :=
  dedupF ((data.box.filter
    (fun b => b.athlete_display_name == pname && b.team_id == tid)).map
    (·.game_id))

/-- Worker for `queryTokens`: split a character list at whitespace runs,
dropping empty pieces; `acc` holds the current piece reversed. -/
def splitWSAux : List Char → List Char → List String
  | acc, [] => if acc.isEmpty then [] else [⟨acc.reverse⟩]
  | acc, c :: rest =>
    if c.isWhitespace then
      if acc.isEmpty then splitWSAux [] rest
      else ⟨acc.reverse⟩ :: splitWSAux [] rest
    else splitWSAux (c :: acc) rest

/-- The lowercase whitespace tokens of a search query (`str.lower().split()`). -/
def queryTokens (q : String) : List String :=
  splitWSAux [] (lowerStr q).data

/-- The distinct (player name, team name, team identifier) triples of the
box-score table, the candidate pool of `search_player`. -/
def searchCandidates (data : Data) : List (String × Option String × Int) :=
  dedupF (data.box.map
    (fun b => (b.athlete_display_name, b.team_display_name, b.team_id)))

/-- The accumulation loop of `search_player` for one candidate: per distinct
game of the player, the game counts towards the totals only when the player
has at least one shot in it.  Returns (games with shots, total shots, total
makes). -/
def gamesStats (data : Data) (tid : Int) (pname : String) : Nat × Nat × Nat :=
  let per := (uniqueGids data tid pname).map
    (fun gid => playerShotsIn data gid tid pname)
  let withShots := per.filter (fun l => !l.isEmpty)
  (withShots.length,
    (withShots.map (·.length)).sum,
    (withShots.map (fun l => (l.filter (fun s => s.ev.scoring_play)).length)).sum)

/-- `search_player` (`/api/search-player`): keep the candidates whose
lowercased name contains every query token, compute their season totals, and
drop those with no game containing a shot. -/
def search_player (data : Data) (q : String) : List SearchResult :=
  (searchCandidates data).filterMap (fun c =>
    if (queryTokens q).all (fun t => substrB t (lowerStr c.1)) then
      let st := gamesStats data c.2.2 c.1
      if 0 < st.1 then
        some ⟨c.1, c.2.1.getD "Unknown", c.2.2, st.1, st.2.1, st.2.2⟩
      else none
    else none)

/-- The W/L score string `"W t-o"` or `"L t-o"`, chosen by strict numeric
comparison (a tie falls to `"L"`). -/
def scoreWL (t o : Int) : String :=
  (if t > o then "W" else "L") ++ " " ++ toString t ++ "-" ++ toString o

/-- The score string of `/api/games`: `"TBD"` unless both final scores are
present. -/
def gamesScore (t o : Option Int) : String :=
  match t, o with
  | some tv, some ov => scoreWL tv ov
  | _, _ => "TBD"

/-- The score string of `/api/player-games`, which tests only the team score:
with the team score absent it is `"TBD"`; with the team score present but the
opponent score absent the integer conversion of the opponent score raises, a
branch modelled by `none`. -/
def pgScore (t o : Option Int) : Option String :=
  match t with
  | none => some "TBD"
  | some tv =>
    match o with
    | some ov => some (scoreWL tv ov)
    | none => none

/-- `/api/games`: one card per record of `get_team_games`, with opponent,
location and score presented relative to the requested team. -/
def get_games (data : Data) (tid : Int) : List GameCard :=
  (get_team_games data tid).map (fun g =>
    let p :=
      if g.home_team_id == tid then
        (g.away_team_name, "vs", g.home_score, g.away_score)
      else (g.home_team_name, "@", g.away_score, g.home_score)
    ⟨g.game_id, fmtDate g.game_date, p.1, p.2.1, gamesScore p.2.2.1 p.2.2.2⟩)

/-- One iteration of the `get_player_games` loop: `some none` means the game
is skipped (no shots, or no play-by-play rows), `some (some e)` is a produced
entry, and `none` marks the uncaught exception raised while formatting the
score string. -/
def pgStep (data : Data) (tid : Int) (pname : String) (gid : Int) :
    Option (Option PGEntry) :=
  let pshots := playerShotsIn data gid tid pname
  if pshots.length = 0 then some none
  else
    match (data.pbp.filter (·.game_id == gid)).getLast? with
    | none => some none
    | some row =>
      let p :=
        if row.home_team_id == tid then
          (row.away_team_name, "vs", row.home_score, row.away_score)
        else (row.home_team_name, "@", row.away_score, row.home_score)
      match pgScore p.2.2.1 p.2.2.2 with
      | none => none
      | some sc =>
        some (some ⟨gid, fmtDate row.game_date, p.1, p.2.1, sc, pshots.length,
          (pshots.filter (fun s => s.ev.scoring_play)).length⟩)

/-- Run the `get_player_games` loop over a list of game identifiers,
propagating the raising branch. -/
def pgAll (data : Data) (tid : Int) (pname : String) :
    List Int → Option (List PGEntry)
  | [] => some []
  | gid :: rest =>
    match pgStep data tid pname gid with
    | none => none
    | some none => pgAll data tid pname rest
    | some (some e) => (pgAll data tid pname rest).map (e :: ·)

/-- `get_player_games` (`/api/player-games`): per distinct game of the
player, keep the games with at least one shot, build an entry from the last
play-by-play row of the game, and sort the entries by their formatted date
string. -/
def get_player_games (data : Data) (tid : Int) (pname : String) :
    Option (List PGEntry) :=
  (pgAll data tid pname (uniqueGids data tid pname)).map
    (List.insertionSort pgLe)

/-- `get_player_season_chart` (`/api/player-season-chart`): concatenate the
per-game shot sets of the player, answer 404 when every game is shotless,
else return the title (with the count of all distinct games of the player,
shotless ones included) and the aggregate statistics. -/
def get_player_season_chart (data : Data) (tid : Int) (pname : String) :
    Except String SeasonChart :=
  let gids := uniqueGids data tid pname
  let allShots := (gids.map (fun gid => playerShotsIn data gid tid pname)).filter
    (fun l => !l.isEmpty)
  if allShots.isEmpty then .error "No shots found"
  else
    let combined := allShots.flatten
    let makes := (combined.filter (fun s => s.ev.scoring_play)).length
    let total := combined.length
    .ok ⟨pname ++ " - 2025-26 Season Shot Chart (" ++ toString gids.length
        ++ " games)",
      ⟨makes, total - makes, total,
        if 0 < total then (makes : ℚ) / total * 100 else 0, gids.length⟩⟩

/-- The shot set rendered by `get_shot_chart`: the whole team shot set for
the reserved Team View name, else the rows of the named player. -/
def chartShots (data : Data) (gid tid : Int) (pname : String) : List ShotRow :=
  if pname == "Team View" then (get_player_shots data gid tid).1
  else (get_player_shots data gid tid).1.filter (fun s => s.name == some pname)

/-- The (team score, opponent score) pair of a game record relative to the
requested team, as read by the chart-title code. -/
def chartTeamOpp (gi : GameInfo) (tid : Int) : Option Int × Option Int :=
  if gi.home_team_id == tid then (gi.home_score, gi.away_score)
  else (gi.away_score, gi.home_score)

/-- `get_shot_chart` (`/api/shot-chart`): select the game record with
`.iloc[0]` (raising on an empty selection), restrict the team shot set to the
requested player unless the Team View aggregate is requested, answer 404 on
an empty shot set, render the chart (raising when the title conversion meets
a present team score with an absent opponent score), and return the
statistics. -/
def get_shot_chart (data : Data) (gid tid : Int) (pname : String) :
    Except ChartErr ChartStats :=
  match (get_team_games data tid).filter (·.game_id == gid) with
  | [] => .error .indexError
  | gi :: _ =>
    let pshots := chartShots data gid tid pname
    if pshots.isEmpty then .error .noShots
    else
      match (chartTeamOpp gi tid).1, (chartTeamOpp gi tid).2 with
      | some _, none => .error .valueError
      | _, _ =>
        let makes := (pshots.filter (fun s => s.ev.scoring_play)).length
        let total := pshots.length
        .ok ⟨makes, total - makes, total,
          if 0 < total then (makes : ℚ) / total * 100 else 0⟩

/-! Helper lemmas about the embedded pandas primitives. -/

theorem mem_dedupAux {α : Type} [DecidableEq α] (x : α) :
    ∀ (l seen : List α), x ∈ dedupAux seen l ↔ x ∈ l ∧ x ∉ seen
  | [], seen => by simp [dedupAux]
  | a :: as, seen => by
    rw [dedupAux]
    by_cases ha : a ∈ seen
    · rw [if_pos ha, mem_dedupAux x as seen]
      constructor
      · exact fun h => ⟨List.mem_cons_of_mem _ h.1, h.2⟩
      · rintro ⟨h1, h2⟩
        rcases List.mem_cons.1 h1 with rfl | h1'
        · exact absurd ha h2
        · exact ⟨h1', h2⟩
    · rw [if_neg ha]
      constructor
      · intro hx
        rcases List.mem_cons.1 hx with rfl | hx'
        · exact ⟨List.mem_cons_self x as, ha⟩
        · have h := (mem_dedupAux x as (a :: seen)).1 hx'
          exact ⟨List.mem_cons_of_mem _ h.1,
            fun hs => h.2 (List.mem_cons_of_mem _ hs)⟩
      · rintro ⟨h1, h2⟩
        rcases List.mem_cons.1 h1 with rfl | h1'
        · exact List.mem_cons_self x _
        · by_cases hxa : x = a
          · subst hxa; exact List.mem_cons_self x _
          · refine List.mem_cons_of_mem _
              ((mem_dedupAux x as (a :: seen)).2 ⟨h1', ?_⟩)
            simp [hxa, h2]

theorem nodup_dedupAux {α : Type} [DecidableEq α] :
    ∀ (l seen : List α), (dedupAux seen l).Nodup
  | [], _ => List.nodup_nil
  | a :: as, seen => by
    rw [dedupAux]
    by_cases ha : a ∈ seen
    · rw [if_pos ha]; exact nodup_dedupAux as seen
    · rw [if_neg ha]
      refine List.nodup_cons.2 ⟨?_, nodup_dedupAux as (a :: seen)⟩
      intro hmem
      exact ((mem_dedupAux a as (a :: seen)).1 hmem).2 (List.mem_cons_self a seen)

theorem mem_dedupF {α : Type} [DecidableEq α] (a : α) (l : List α) :
    a ∈ dedupF l ↔ a ∈ l := by
  unfold dedupF
  rw [mem_dedupAux]
  simp

theorem nodup_dedupF {α : Type} [DecidableEq α] (l : List α) :
    (dedupF l).Nodup :=
  nodup_dedupAux l []

theorem dateLeB_iff (a b : Date) :
    Date.leB a b = true ↔
      a.y < b.y ∨ (a.y = b.y ∧ (a.m < b.m ∨ (a.m = b.m ∧ a.d ≤ b.d))) := by
  unfold Date.leB
  split_ifs <;> simp <;> omega

theorem dateLeB_total (a b : Date) :
    Date.leB a b = true ∨ Date.leB b a = true := by
  rw [dateLeB_iff, dateLeB_iff]; omega

theorem dateLeB_trans {a b c : Date} (h1 : Date.leB a b = true)
    (h2 : Date.leB b c = true) : Date.leB a c = true := by
  rw [dateLeB_iff] at h1 h2 ⊢; omega

theorem lexLe_total : ∀ as bs : List Char, lexLe as bs = true ∨ lexLe bs as = true
  | [], _ => Or.inl rfl
  | _ :: _, [] => Or.inr rfl
  | a :: as, b :: bs => by
    by_cases h1 : a.toNat < b.toNat
    · left; simp [lexLe, h1]
    · by_cases h2 : b.toNat < a.toNat
      · right; simp [lexLe, h2]
      · rcases lexLe_total as bs with h | h
        · left; simp [lexLe, h1, h2, h]
        · right; simp [lexLe, h1, h2, h]

theorem lexLe_trans : ∀ as bs cs : List Char, lexLe as bs = true →
    lexLe bs cs = true → lexLe as cs = true
  | [], _, _, _, _ => rfl
  | _ :: _, [], _, h1, _ => by simp [lexLe] at h1
  | _ :: _, _ :: _, [], _, h2 => by simp [lexLe] at h2
  | a :: as, b :: bs, c :: cs, h1, h2 => by
    by_cases hab : a.toNat < b.toNat
    · by_cases hbc : b.toNat < c.toNat
      · simp [lexLe, show a.toNat < c.toNat by omega]
      · by_cases hcb : c.toNat < b.toNat
        · simp [lexLe, hbc, hcb] at h2
        · simp [lexLe, show a.toNat < c.toNat by omega]
    · by_cases hba : b.toNat < a.toNat
      · simp [lexLe, hab, hba] at h1
      · by_cases hbc : b.toNat < c.toNat
        · simp [lexLe, show a.toNat < c.toNat by omega]
        · by_cases hcb : c.toNat < b.toNat
          · simp [lexLe, hbc, hcb] at h2
          · simp only [lexLe, if_neg hab, if_neg hba] at h1
            simp only [lexLe, if_neg hbc, if_neg hcb] at h2
            have hac : ¬ a.toNat < c.toNat := by omega
            have hca : ¬ c.toNat < a.toNat := by omega
            simp only [lexLe, if_neg hac, if_neg hca]
            exact lexLe_trans as bs cs h1 h2

instance : IsTotal GameInfo giLe :=
  ⟨fun a b => dateLeB_total a.game_date b.game_date⟩

instance : IsTrans GameInfo giLe :=
  ⟨fun _ _ _ h1 h2 => dateLeB_trans h1 h2⟩

instance : IsTotal String strLe :=
  ⟨fun s t => lexLe_total s.data t.data⟩

instance : IsTrans String strLe :=
  ⟨fun s t u h1 h2 => lexLe_trans s.data t.data u.data h1 h2⟩

instance : IsTotal PGEntry pgLe :=
  ⟨fun a b => lexLe_total a.date.data b.date.data⟩

instance : IsTrans PGEntry pgLe :=
  ⟨fun a b c h1 h2 => lexLe_trans a.date.data b.date.data c.date.data h1 h2⟩

theorem mergeNames_nil (names : List (PandasNum × String)) :
    mergeNames [] names = [] := rfl

theorem mem_mergeNames_ev {events : List PlayEvent}
    {names : List (PandasNum × String)} {s : ShotRow}
    (h : s ∈ mergeNames events names) : s.ev ∈ events := by
  simp only [mergeNames, List.mem_flatMap] at h
  obtain ⟨e, he, hs⟩ := h
  split at hs
  · simp only [List.mem_singleton] at hs
    subst hs; exact he
  · simp only [List.mem_map] at hs
    obtain ⟨p', _, rfl⟩ := hs
    exact he

theorem mergeNames_total {events : List PlayEvent}
    {names : List (PandasNum × String)} (e : PlayEvent) (he : e ∈ events) :
    ∃ s ∈ mergeNames events names, s.ev = e := by
  cases hms : names.filter (fun p => e.athlete_id_1 == some p.1) with
  | nil =>
    refine ⟨⟨e, none⟩, ?_, rfl⟩
    simp only [mergeNames, List.mem_flatMap]
    exact ⟨e, he, by rw [hms]; simp⟩
  | cons p ps =>
    refine ⟨⟨e, some p.2⟩, ?_, rfl⟩
    simp only [mergeNames, List.mem_flatMap]
    refine ⟨e, he, ?_⟩
    rw [hms]
    exact List.mem_map.2 ⟨p, List.mem_cons_self p ps, rfl⟩

theorem sum_map_const_zero {α : Type} (l : List α) :
    (l.map fun _ => (0 : Nat)).sum = 0 := by
  induction l <;> simp [*]

theorem sum_map_add_distrib {α : Type} (l : List α) (f g : α → Nat) :
    (l.map fun a => f a + g a).sum = (l.map f).sum + (l.map g).sum := by
  induction l with
  | nil => simp
  | cons a as ih => simp only [List.map_cons, List.sum_cons, ih]; omega

theorem sum_ind_notMem {β : Type} [DecidableEq β] (x : β) (l : List β)
    (h : x ∉ l) : (l.map fun b => if x = b then (1 : Nat) else 0).sum = 0 := by
  induction l with
  | nil => simp
  | cons b bs ih =>
    simp only [List.mem_cons, not_or] at h
    simp [h.1, ih h.2]

theorem sum_ind_mem {β : Type} [DecidableEq β] (x : β) (l : List β)
    (hnd : l.Nodup) (hm : x ∈ l) :
    (l.map fun b => if x = b then (1 : Nat) else 0).sum = 1 := by
  induction l with
  | nil => simp at hm
  | cons b bs ih =>
    rcases List.nodup_cons.1 hnd with ⟨hb, hnd'⟩
    rcases List.mem_cons.1 hm with rfl | hm'
    · simp [sum_ind_notMem x bs hb]
    · have hxb : x ≠ b := fun h => hb (h ▸ hm')
      simp [hxb, ih hnd' hm']

/-- Partition count: when every element maps into a duplicate-free name list,
the length of a list is the sum, over the names, of the lengths of the
per-name filters. -/
theorem length_eq_sum_counts {α β : Type} [BEq β] [LawfulBEq β]
    [DecidableEq β] (key : α → β) :
    ∀ (l : List α) (names : List β), names.Nodup → (∀ s ∈ l, key s ∈ names) →
      l.length = (names.map fun nm => (l.filter fun x => key x == nm).length).sum
  | [], names, _, _ => by
    simp only [List.filter_nil, List.length_nil]
    rw [sum_map_const_zero names]
  | s :: rest, names, hnd, hmem => by
    have hk : key s ∈ names := hmem s (List.mem_cons_self s rest)
    have ih := length_eq_sum_counts key rest names hnd
      (fun x hx => hmem x (List.mem_cons_of_mem _ hx))
    have step : ∀ nm ∈ names, ((s :: rest).filter fun x => key x == nm).length
        = (if key s = nm then (1 : Nat) else 0)
          + (rest.filter fun x => key x == nm).length := by
      intro nm _
      rw [List.filter_cons]
      by_cases h : key s = nm
      · rw [if_pos (by simp [h]), if_pos h, List.length_cons]
        omega
      · rw [if_neg (by simp [h]), if_neg h]
        omega
    rw [List.map_congr_left step, sum_map_add_distrib,
      sum_ind_mem (key s) names hnd hk]
    simp only [List.length_cons]
    omega

theorem map_enumFrom_snd {α β : Type} (f : α → β) :
    ∀ (n : Nat) (l : List α), ((l.enumFrom n).map fun p => f p.2) = l.map f
  | _, [] => rfl
  | n, a :: as => by
    simp only [List.enumFrom, List.map_cons, List.map]
    rw [map_enumFrom_snd f (n + 1) as]

theorem filter_length_lt {α : Type} (p : α → Bool) (l : List α) (x : α)
    (hx : x ∈ l) (hpx : p x = false) : (l.filter p).length < l.length := by
  induction l with
  | nil => simp at hx
  | cons a as ih =>
    rw [List.filter_cons]
    rcases List.mem_cons.1 hx with rfl | hx'
    · rw [hpx]
      simp only [Bool.false_eq_true, if_false, List.length_cons]
      exact Nat.lt_succ_of_le (List.length_filter_le _ _)
    · by_cases hpa : p a = true
      · simp only [hpa, if_true, List.length_cons]
        exact Nat.succ_lt_succ (ih hx')
      · simp only [hpa, if_false, List.length_cons]
        exact Nat.lt_succ_of_lt (ih hx')

theorem getLastD_map_ne_nil {α β : Type} (f : α → β) (l : List α) (d : β)
    (h : l ≠ []) : (l.map f).getLastD d = f (l.getLast h) := by
  rw [List.getLastD_eq_getLast?, List.getLast?_map,
    List.getLast?_eq_getLast l h]
  rfl

theorem playerShotsIn_eq_nil_of_events {data : Data} {gid tid : Int}
    {pname : String} (h : data.pbp.filter (·.game_id == gid) = []) :
    playerShotsIn data gid tid pname = [] := by
  have he : eventsOf data gid = [] := h
  unfold playerShotsIn get_player_shots
  rw [he, mergeNames_nil]
  rfl

theorem pgStep_skip {data : Data} {tid : Int} {pname : String} {gid : Int}
    (h : pgStep data tid pname gid = some none) :
    (playerShotsIn data gid tid pname).length = 0 := by
  simp only [pgStep] at h
  split at h
  · assumption
  · split at h
    · rename_i heq
      rw [playerShotsIn_eq_nil_of_events (List.getLast?_eq_none_iff.1 heq)]
      rfl
    · split at h
      · exact absurd h (by simp)
      · exact absurd h (by simp)

theorem pgStep_entry {data : Data} {tid : Int} {pname : String} {gid : Int}
    {e : PGEntry} (h : pgStep data tid pname gid = some (some e)) :
    e.game_id = gid ∧ (playerShotsIn data gid tid pname).length ≠ 0 := by
  simp only [pgStep] at h
  split at h
  · exact absurd h (by simp)
  · rename_i hlen
    split at h
    · exact absurd h (by simp)
    · split at h
      · exact absurd h (by simp)
      · injection h with h'
        injection h' with h''
        subst h''
        exact ⟨rfl, hlen⟩

theorem pgAll_map_gid (data : Data) (tid : Int) (pname : String) :
    ∀ (gids : List Int) (entries : List PGEntry),
      pgAll data tid pname gids = some entries →
      entries.map (·.game_id)
        = gids.filter (fun gid => !(playerShotsIn data gid tid pname).isEmpty)
  | [], entries, h => by
    simp only [pgAll] at h
    injection h with h'
    subst h'
    rfl
  | gid :: rest, entries, h => by
    cases hstep : pgStep data tid pname gid with
    | none =>
      rw [pgAll, hstep] at h
      exact absurd h (by simp)
    | some o =>
      cases o with
      | none =>
        rw [pgAll, hstep] at h
        have ih := pgAll_map_gid data tid pname rest entries h
        have hempty : (!(playerShotsIn data gid tid pname).isEmpty) = false := by
          have := pgStep_skip hstep
          rw [List.length_eq_zero] at this
          simp [this]
        rw [List.filter_cons, hempty]
        simpa using ih
      | some e =>
        rw [pgAll, hstep] at h
        rcases Option.map_eq_some'.1 h with ⟨es, hes, rfl⟩
        have ih := pgAll_map_gid data tid pname rest es hes
        obtain ⟨hgid, hne⟩ := pgStep_entry hstep
        have hfull : (!(playerShotsIn data gid tid pname).isEmpty) = true := by
          cases hps : playerShotsIn data gid tid pname with
          | nil => exact absurd (by rw [hps]; rfl) hne
          | cons a as => rfl
        rw [List.filter_cons, hfull]
        simp only [if_true, List.map_cons, ih, hgid]

/-! Claim theorems. -/

/-- Claim C5: for every (game, team), every row of the shot set returned by
`get_player_shots` has team identifier equal to the queried team,
shooting-play flag true, and an event-type label that does not contain
"FreeThrow" as a case-insensitive substring (an absent label trivially does
not contain it). -/
theorem getPlayerShots_rows_spec (data : Data) (gid tid : Int) (s : ShotRow)
    (hs : s ∈ (get_player_shots data gid tid).1) :
    s.ev.team_id = some tid ∧ s.ev.shooting_play = true ∧
      containsCI (s.ev.type_text.getD "") "FreeThrow" = false := by
  have h := List.mem_filter.1 hs
  have hkeep := h.2
  simp only [shotKeep, Bool.and_eq_true, beq_iff_eq, Bool.not_eq_true'] at hkeep
  exact ⟨hkeep.1.1, hkeep.1.2, hkeep.2⟩

/-- Claim C6: inside `get_player_shots` the box-score side of the player
identifier join key is cast to float, so a box row and a play event denoting
the same numeric identifier are joined even when the box row stores the
identifier as an integer-like value while the play event stores a floating
value; moreover the left merge never drops a play-by-play row. -/
theorem playerJoin_spec (data : Data) (gid : Int) (b : BoxRow) (e : PlayEvent)
    (hb : b ∈ data.box) (hbg : b.game_id = gid) (he : e ∈ data.pbp)
    (heg : e.game_id = gid)
    (hid : e.athlete_id_1 = some (.f b.athlete_id.val)) :
    (∃ s ∈ mergeNames (eventsOf data gid) (namesOf data gid),
        s.ev = e ∧ s.name = some b.athlete_display_name) ∧
      ∀ ev ∈ eventsOf data gid,
        ∃ s ∈ mergeNames (eventsOf data gid) (namesOf data gid), s.ev = ev := by
  constructor
  · have hkey : b.athlete_id.toFloat = .f b.athlete_id.val := by
      cases b.athlete_id <;> rfl
    have hp : (b.athlete_id.toFloat, b.athlete_display_name) ∈ namesOf data gid := by
      unfold namesOf
      rw [mem_dedupF]
      exact List.mem_map.2 ⟨b, List.mem_filter.2 ⟨hb, by simp [hbg]⟩, rfl⟩
    have hin : (b.athlete_id.toFloat, b.athlete_display_name)
        ∈ (namesOf data gid).filter (fun p => e.athlete_id_1 == some p.1) :=
      List.mem_filter.2 ⟨hp, by simp [hid, hkey]⟩
    have hee : e ∈ eventsOf data gid := List.mem_filter.2 ⟨he, by simp [heg]⟩
    cases hms : (namesOf data gid).filter (fun p => e.athlete_id_1 == some p.1) with
    | nil => rw [hms] at hin; simp at hin
    | cons q qs =>
      refine ⟨⟨e, some b.athlete_display_name⟩, ?_, rfl, rfl⟩
      simp only [mergeNames, List.mem_flatMap]
      refine ⟨e, hee, ?_⟩
      rw [hms]
      exact List.mem_map.2
        ⟨(b.athlete_id.toFloat, b.athlete_display_name), hms ▸ hin, rfl⟩
  · exact fun ev hev => mergeNames_total ev hev

/-- Claim C7: every result of `search_player` is a candidate whose lowercased
name contains every lowercase whitespace token of the query as a substring,
and every result has at least one game containing shots. -/
theorem searchPlayer_spec (data : Data) (q : String) (r : SearchResult)
    (hr : r ∈ search_player data q) :
    (∀ t ∈ queryTokens q, substrB t (lowerStr r.player_name) = true) ∧
      1 ≤ r.total_games := by
  unfold search_player at hr
  rcases List.mem_filterMap.1 hr with ⟨c, _, heq⟩
  by_cases hmatch : ((queryTokens q).all fun t => substrB t (lowerStr c.1)) = true
  · rw [if_pos hmatch] at heq
    by_cases hpos : 0 < (gamesStats data c.2.2 c.1).1
    · rw [if_pos hpos] at heq
      injection heq with heq'
      subst heq'
      exact ⟨fun t ht => List.all_eq_true.1 hmatch t ht, hpos⟩
    · rw [if_neg hpos] at heq
      exact absurd heq (by simp)
  · rw [if_neg hmatch] at heq
    exact absurd heq (by simp)

/-- Claim C8: whenever `get_player_games` returns a result list, that list is
sorted ascending by the formatted "MM/DD/YYYY" date string under
lexicographic string order (the relation `pgLe`), and its game identifiers
are exactly the distinct games referenced by the box-score rows of the
(team, player) pair in which the re-derived shot set contains at least one
shot by that player. -/
theorem getPlayerGames_spec (data : Data) (tid : Int) (pname : String)
    (l : List PGEntry) (h : get_player_games data tid pname = some l) :
    List.Sorted pgLe l ∧
      (l.map (·.game_id)).Perm
        ((uniqueGids data tid pname).filter
          (fun gid => !(playerShotsIn data gid tid pname).isEmpty)) := by
  unfold get_player_games at h
  rcases Option.map_eq_some'.1 h with ⟨es, hes, rfl⟩
  refine ⟨List.sorted_insertionSort pgLe es, ?_⟩
  have hperm := (List.perm_insertionSort pgLe es).map (·.game_id)
  rw [pgAll_map_gid data tid pname _ es hes] at hperm
  exact hperm

/-- The guard shape shared by every percentage computation in the source. -/
theorem playerEntry_pct (idv : Nat) (nm : String) (sc mk : Nat) :
    ((⟨idv, nm, sc, mk, if 0 < sc then (mk : ℚ) / sc * 100 else 0⟩ :
        PlayerEntry).shots = 0 →
      (⟨idv, nm, sc, mk, if 0 < sc then (mk : ℚ) / sc * 100 else 0⟩ :
        PlayerEntry).percentage = 0) ∧
    (0 < (⟨idv, nm, sc, mk, if 0 < sc then (mk : ℚ) / sc * 100 else 0⟩ :
        PlayerEntry).shots →
      (⟨idv, nm, sc, mk, if 0 < sc then (mk : ℚ) / sc * 100 else 0⟩ :
          PlayerEntry).percentage
        = ((⟨idv, nm, sc, mk, if 0 < sc then (mk : ℚ) / sc * 100 else 0⟩ :
            PlayerEntry).makes : ℚ)
          / (⟨idv, nm, sc, mk, if 0 < sc then (mk : ℚ) / sc * 100 else 0⟩ :
            PlayerEntry).shots * 100) := by
  constructor
  · intro h0
    simp only at h0 ⊢
    rw [if_neg (by omega)]
  · intro hpos
    simp only at hpos ⊢
    rw [if_pos hpos]

/-- Claim C9: every aggregation that reports a shooting percentage — the Team
View and per-player entries of `get_players`, the season shot-chart
statistics, and the single-game shot-chart statistics — reports exactly 0
when the shot count is 0 and makes divided by total times 100 otherwise. -/
theorem percentage_spec :
    (∀ (data : Data) (gid tid : Int), ∀ e ∈ get_players data gid tid,
        (e.shots = 0 → e.percentage = 0) ∧
          (0 < e.shots → e.percentage = (e.makes : ℚ) / e.shots * 100)) ∧
      (∀ (data : Data) (tid : Int) (pname : String) (r : SeasonChart),
        get_player_season_chart data tid pname = .ok r →
          (r.stats.total = 0 → r.stats.percentage = 0) ∧
            (0 < r.stats.total →
              r.stats.percentage = (r.stats.makes : ℚ) / r.stats.total * 100)) ∧
      (∀ (data : Data) (gid tid : Int) (pname : String) (r : ChartStats),
        get_shot_chart data gid tid pname = .ok r →
          (r.total = 0 → r.percentage = 0) ∧
            (0 < r.total → r.percentage = (r.makes : ℚ) / r.total * 100)) := by
  refine ⟨?_, ?_, ?_⟩
  · intro data gid tid e he
    unfold get_players at he
    rcases List.mem_cons.1 he with rfl | hmap
    · exact playerEntry_pct 0 "Team View" _ _
    · rcases List.mem_map.1 hmap with ⟨p, _, rfl⟩
      exact playerEntry_pct p.1 p.2 _ _
  · intro data tid pname r h
    simp only [get_player_season_chart] at h
    split at h
    · exact absurd h (by simp)
    · injection h with h'
      subst h'
      constructor
      · intro h0
        simp only at h0 ⊢
        rw [if_neg (by omega)]
      · intro hpos
        simp only at hpos ⊢
        rw [if_pos hpos]
  · intro data gid tid pname r h
    simp only [get_shot_chart] at h
    split at h
    · exact absurd h (by simp)
    · split at h
      · exact absurd h (by simp)
      · split at h
        · exact absurd h (by simp)
        · injection h with h'
          subst h'
          constructor
          · intro h0
            simp only at h0 ⊢
            rw [if_neg (by omega)]
          · intro hpos
            simp only at hpos ⊢
            rw [if_pos hpos]

theorem get_team_games_eq (data : Data) (tid : Int) :
    get_team_games data tid
      = List.insertionSort giLe
        ((List.insertionSort (α := Int) (· ≤ ·)
            (dedupF ((data.pbp.filter (teamSide tid)).map (·.game_id)))).map
          (fun gid => buildInfo gid
            ((data.pbp.filter (teamSide tid)).filter (·.game_id == gid)))) :=
  rfl

/-- Every record of `get_team_games` carries the game identifier of some
play-by-play row. -/
theorem get_team_games_gid_mem (data : Data) (tid : Int) (g : GameInfo)
    (hg : g ∈ get_team_games data tid) :
    ∃ r ∈ data.pbp, r.game_id = g.game_id := by
  rw [get_team_games_eq] at hg
  have hg2 := (List.perm_insertionSort giLe _).mem_iff.1 hg
  rcases List.mem_map.1 hg2 with ⟨gid, hgid, rfl⟩
  have hgid2 := (List.perm_insertionSort (α := Int) (· ≤ ·) _).mem_iff.1 hgid
  rw [mem_dedupF] at hgid2
  rcases List.mem_map.1 hgid2 with ⟨r, hr, hrid⟩
  exact ⟨r, (List.mem_filter.1 hr).1, hrid⟩

/-- Claim C1 (amended): a team identifier absent from both base tables yields
an empty game list from `get_team_games` and empty shot/roster sets from
`get_player_shots`; likewise a game identifier absent from both base tables
yields empty shot/roster sets; but in either case `get_shot_chart` fails with
the uncaught index error raised by `.iloc[0]` on the empty game selection,
instead of reaching its explicit not-found response. -/
theorem unknownId_spec (data : Data) (gid tid : Int) (pname : String) :
    ((∀ e ∈ data.pbp,
        e.home_team_id ≠ tid ∧ e.away_team_id ≠ tid ∧ e.team_id ≠ some tid) →
      (∀ b ∈ data.box, b.team_id ≠ tid) →
      get_team_games data tid = [] ∧ (get_player_shots data gid tid).1 = [] ∧
        (get_player_shots data gid tid).2 = [] ∧
        get_shot_chart data gid tid pname = .error .indexError) ∧
    ((∀ e ∈ data.pbp, e.game_id ≠ gid) → (∀ b ∈ data.box, b.game_id ≠ gid) →
      (get_player_shots data gid tid).1 = [] ∧
        (get_player_shots data gid tid).2 = [] ∧
        get_shot_chart data gid tid pname = .error .indexError) := by
  constructor
  · intro h1 h2
    have hrows : data.pbp.filter (teamSide tid) = [] := by
      rw [List.filter_eq_nil_iff]
      intro e he
      have h := h1 e he
      simp [teamSide, h.1, h.2.1]
    have hteam : get_team_games data tid = [] := by
      unfold get_team_games
      rw [hrows]
      rfl
    have hshots : (get_player_shots data gid tid).1 = [] := by
      show (mergeNames (eventsOf data gid) (namesOf data gid)).filter
        (shotKeep tid) = []
      rw [List.filter_eq_nil_iff]
      intro s hs
      have hev := (List.mem_filter.1 (mem_mergeNames_ev hs)).1
      have hid := (h1 s.ev hev).2.2
      simp [shotKeep, hid]
    have hroster : (get_player_shots data gid tid).2 = [] := by
      have hfil : (data.box.filter (·.game_id == gid)).filter
          (·.team_id == tid) = [] := by
        rw [List.filter_eq_nil_iff]
        intro b hb
        have := h2 b (List.mem_filter.1 hb).1
        simp [this]
      show dedupF (((data.box.filter (·.game_id == gid)).filter
        (·.team_id == tid)).map
        (fun b => (b.athlete_id, b.athlete_display_name))) = []
      rw [hfil]
      rfl
    refine ⟨hteam, hshots, hroster, ?_⟩
    unfold get_shot_chart
    rw [hteam]
    rfl
  · intro h1g h2g
    have hev : data.pbp.filter (·.game_id == gid) = [] := by
      rw [List.filter_eq_nil_iff]
      intro e he
      simp [h1g e he]
    have hbox : data.box.filter (·.game_id == gid) = [] := by
      rw [List.filter_eq_nil_iff]
      intro b hb
      simp [h2g b hb]
    have hshots : (get_player_shots data gid tid).1 = [] := by
      show (mergeNames (eventsOf data gid) (namesOf data gid)).filter
        (shotKeep tid) = []
      have hevz : eventsOf data gid = [] := hev
      rw [hevz, mergeNames_nil]
      rfl
    have hroster : (get_player_shots data gid tid).2 = [] := by
      show dedupF (((data.box.filter (·.game_id == gid)).filter
        (·.team_id == tid)).map
        (fun b => (b.athlete_id, b.athlete_display_name))) = []
      rw [hbox]
      rfl
    have hfilgames : (get_team_games data tid).filter (·.game_id == gid)
        = [] := by
      rw [List.filter_eq_nil_iff]
      intro g hg
      rcases get_team_games_gid_mem data tid g hg with ⟨r, hr, hrid⟩
      simp only [beq_iff_eq]
      rw [← hrid]
      exact h1g r hr
    refine ⟨hshots, hroster, ?_⟩
    unfold get_shot_chart
    rw [hfilgames]

theorem playerEntryOf_shots (ts : List ShotRow) (p : Nat × String) :
    (playerEntryOf ts p).shots
      = (ts.filter (fun s => s.name == some p.2)).length := rfl

theorem playerEntryOf_makes (ts : List ShotRow) (p : Nat × String) :
    (playerEntryOf ts p).makes
      = ((ts.filter (fun s => s.name == some p.2)).filter
          (fun s => s.ev.scoring_play)).length := rfl

theorem filter_name_scoring_swap (ts : List ShotRow) (nm : String) :
    (ts.filter (fun s => s.name == some nm)).filter
        (fun s => s.ev.scoring_play)
      = (ts.filter (fun s => s.ev.scoring_play)).filter
        (fun s => s.name == some nm) := by
  rw [List.filter_filter, List.filter_filter]
  exact List.filter_congr (fun s _ => Bool.and_comm _ _)

/-- Claim C3 (amended): whenever every row of the team shot set carries a
merged display name belonging to the listed roster names, the Team View
entry's shot and make counts equal the sums of the corresponding counts over
the individually listed player entries. -/
theorem teamView_sum_spec (data : Data) (gid tid : Int)
    (h : ∀ s ∈ (get_player_shots data gid tid).1,
        s.name ∈ (rosterNames data gid tid).map some) :
    ∃ tv rest, get_players data gid tid = tv :: rest ∧
      tv.shots = (rest.map (·.shots)).sum ∧
      tv.makes = (rest.map (·.makes)).sum := by
  have hnd : ((rosterNames data gid tid).map some).Nodup := by
    refine List.Nodup.map (Option.some_injective _) ?_
    unfold rosterNames
    exact (List.perm_insertionSort strLe _).symm.nodup (nodup_dedupF _)
  refine ⟨_, _, rfl, ?_, ?_⟩
  · show (get_player_shots data gid tid).1.length = _
    rw [List.map_map]
    simp only [Function.comp_def, playerEntryOf_shots]
    rw [map_enumFrom_snd (fun nm => ((get_player_shots data gid tid).1.filter
      (fun s => s.name == some nm)).length) 1 (rosterNames data gid tid)]
    have hmain := length_eq_sum_counts (fun s : ShotRow => s.name)
      (get_player_shots data gid tid).1
      ((rosterNames data gid tid).map some) hnd h
    rw [List.map_map] at hmain
    simp only [Function.comp_def] at hmain
    exact hmain
  · show ((get_player_shots data gid tid).1.filter
      (fun s => s.ev.scoring_play)).length = _
    rw [List.map_map]
    simp only [Function.comp_def, playerEntryOf_makes,
      filter_name_scoring_swap]
    rw [map_enumFrom_snd (fun nm => (((get_player_shots data gid tid).1.filter
      (fun s => s.ev.scoring_play)).filter
      (fun s => s.name == some nm)).length) 1 (rosterNames data gid tid)]
    have hmem2 : ∀ s ∈ (get_player_shots data gid tid).1.filter
        (fun s => s.ev.scoring_play),
        s.name ∈ (rosterNames data gid tid).map some :=
      fun s hs => h s (List.mem_filter.1 hs).1
    have hmain := length_eq_sum_counts (fun s : ShotRow => s.name)
      ((get_player_shots data gid tid).1.filter (fun s => s.ev.scoring_play))
      ((rosterNames data gid tid).map some) hnd hmem2
    rw [List.map_map] at hmain
    simp only [Function.comp_def] at hmain
    exact hmain

/-- Claim C4 (amended): `get_team_games` returns one record per distinct game
in which the team appears as home or away side, sorted non-decreasing by
date, with the team on the home or away side of every record; each score
column holds the last non-null value of its game group (the last row's value
whenever that row carries one — in particular not the first row's 0-0
placeholder). -/
theorem getTeamGames_spec (data : Data) (tid : Int) :
    ((get_team_games data tid).map (·.game_id)).Perm
        (dedupF ((data.pbp.filter (teamSide tid)).map (·.game_id))) ∧
      List.Sorted giLe (get_team_games data tid) ∧
      (∀ g ∈ get_team_games data tid,
        g.home_team_id = tid ∨ g.away_team_id = tid) ∧
      (∀ g ∈ get_team_games data tid,
        g.home_score = lastNonNull (((data.pbp.filter (teamSide tid)).filter
            (fun e => e.game_id == g.game_id)).map (·.home_score)) ∧
        g.away_score = lastNonNull (((data.pbp.filter (teamSide tid)).filter
            (fun e => e.game_id == g.game_id)).map (·.away_score))) := by
  have hrec : ∀ g ∈ get_team_games data tid,
      ∃ gid, gid ∈ dedupF ((data.pbp.filter (teamSide tid)).map (·.game_id)) ∧
        g = buildInfo gid
          ((data.pbp.filter (teamSide tid)).filter (·.game_id == gid)) := by
    intro g hg
    rw [get_team_games_eq] at hg
    have hg2 := (List.perm_insertionSort giLe _).mem_iff.1 hg
    rcases List.mem_map.1 hg2 with ⟨gid, hgid, rfl⟩
    exact ⟨gid, (List.perm_insertionSort (α := Int) (· ≤ ·) _).mem_iff.1 hgid,
      rfl⟩
  have hgrp : ∀ gid, gid ∈ dedupF
      ((data.pbp.filter (teamSide tid)).map (·.game_id)) →
      (data.pbp.filter (teamSide tid)).filter (·.game_id == gid) ≠ [] := by
    intro gid hgid
    rw [mem_dedupF] at hgid
    rcases List.mem_map.1 hgid with ⟨r, hr, hrid⟩
    exact List.ne_nil_of_mem (List.mem_filter.2 ⟨hr, by simp [hrid]⟩)
  refine ⟨?_, ?_, ?_, ?_⟩
  · rw [get_team_games_eq]
    refine ((List.perm_insertionSort giLe _).map (·.game_id)).trans ?_
    rw [List.map_map]
    have hid : (List.insertionSort (α := Int) (· ≤ ·)
        (dedupF ((data.pbp.filter (teamSide tid)).map (·.game_id)))).map
          ((fun g : GameInfo => g.game_id) ∘ (fun gid => buildInfo gid
            ((data.pbp.filter (teamSide tid)).filter (·.game_id == gid))))
        = List.insertionSort (α := Int) (· ≤ ·)
          (dedupF ((data.pbp.filter (teamSide tid)).map (·.game_id))) := by
      rw [show ((fun g : GameInfo => g.game_id) ∘ (fun gid => buildInfo gid
        ((data.pbp.filter (teamSide tid)).filter (·.game_id == gid))))
          = id from rfl, List.map_id]
    rw [hid]
    exact List.perm_insertionSort (α := Int) (· ≤ ·) _
  · rw [get_team_games_eq]
    exact List.sorted_insertionSort giLe _
  · intro g hg
    rcases hrec g hg with ⟨gid, hgid, rfl⟩
    have hne := hgrp gid hgid
    have hlast := List.getLast_mem hne
    have hside := (List.mem_filter.1 (List.mem_filter.1 hlast).1).2
    simp only [teamSide, Bool.or_eq_true, beq_iff_eq] at hside
    show ((((data.pbp.filter (teamSide tid)).filter
        (·.game_id == gid)).map (fun e => e.home_team_id)).getLastD 0 = tid)
      ∨ ((((data.pbp.filter (teamSide tid)).filter
        (·.game_id == gid)).map (fun e => e.away_team_id)).getLastD 0 = tid)
    rw [getLastD_map_ne_nil (fun e => e.home_team_id) _ 0 hne,
      getLastD_map_ne_nil (fun e => e.away_team_id) _ 0 hne]
    exact hside
  · intro g hg
    rcases hrec g hg with ⟨gid, hgid, rfl⟩
    exact ⟨rfl, rfl⟩

theorem search_total_games_eq (data : Data) (q : String) (res : SearchResult)
    (hr : res ∈ search_player data q) :
    res.total_games = (gamesStats data res.team_id res.player_name).1 := by
  unfold search_player at hr
  rcases List.mem_filterMap.1 hr with ⟨c, _, heq⟩
  by_cases hmatch : ((queryTokens q).all fun t => substrB t (lowerStr c.1)) = true
  · rw [if_pos hmatch] at heq
    by_cases hpos : 0 < (gamesStats data c.2.2 c.1).1
    · rw [if_pos hpos] at heq
      injection heq with heq'
      subst heq'
      rfl
    · rw [if_neg hpos] at heq
      exact absurd heq (by simp)
  · rw [if_neg hmatch] at heq
    exact absurd heq (by simp)

/-- Claim C10: the season shot chart reports, in both its title and its
statistics, the number of all distinct games referenced by the player's
box-score rows (shotless games included), while `search_player` reports only
the games containing at least one shot; for a player with a shotless
box-score game the two counts differ. -/
theorem seasonVsSearch_games_spec (data : Data) (q pname : String) (tid : Int)
    (r : SeasonChart) (res : SearchResult)
    (hs : get_player_season_chart data tid pname = .ok r)
    (hr : res ∈ search_player data q) (h1 : res.player_name = pname)
    (h2 : res.team_id = tid) (gid : Int)
    (hg : gid ∈ uniqueGids data tid pname)
    (hempty : playerShotsIn data gid tid pname = []) :
    r.stats.games = (uniqueGids data tid pname).length ∧
      r.title = pname ++ " - 2025-26 Season Shot Chart ("
        ++ toString (uniqueGids data tid pname).length ++ " games)" ∧
      res.total_games < r.stats.games := by
  have hfields : r.stats.games = (uniqueGids data tid pname).length ∧
      r.title = pname ++ " - 2025-26 Season Shot Chart ("
        ++ toString (uniqueGids data tid pname).length ++ " games)" := by
    simp only [get_player_season_chart] at hs
    split at hs
    · exact absurd hs (by simp)
    · injection hs with hs'
      subst hs'
      exact ⟨rfl, rfl⟩
  have hsearch : res.total_games = (gamesStats data tid pname).1 := by
    rw [search_total_games_eq data q res hr, h1, h2]
  have hlt : (gamesStats data tid pname).1
      < (uniqueGids data tid pname).length := by
    have hx : playerShotsIn data gid tid pname
        ∈ (uniqueGids data tid pname).map
          (fun gid => playerShotsIn data gid tid pname) :=
      List.mem_map_of_mem _ hg
    have hfalse : (!(playerShotsIn data gid tid pname).isEmpty) = false := by
      rw [hempty]; rfl
    have hlen := filter_length_lt (fun l : List ShotRow => !l.isEmpty) _ _ hx
      hfalse
    rw [List.length_map] at hlen
    exact hlen
  exact ⟨hfields.1, hfields.2, by rw [hsearch, hfields.1]; exact hlt⟩

/-! Concrete datasets used to instantiate the theorems. -/

def dNov5 : Date := ⟨2025, 11, 5⟩

def dNov8 : Date := ⟨2025, 11, 8⟩

/-- Game 10, home team 1 "A" against away team 2 "B": a made jump shot by
player 7. -/
def evW1 : PlayEvent :=
  ⟨10, dNov5, 1, 2, "A", "B", some 10, some 7, some (.f 7), some 1,
    some "JumpShot", true, true, some 1, some 2⟩

/-- Game 10: a missed lay-up by player 7. -/
def evW2 : PlayEvent :=
  ⟨10, dNov5, 1, 2, "A", "B", some 12, some 9, some (.f 7), some 1,
    some "LayUpShot", true, false, some 3, some 4⟩

/-- Game 10: the final non-shot row carrying the final 75-70 score. -/
def evW3 : PlayEvent :=
  ⟨10, dNov5, 1, 2, "A", "B", some 75, some 70, none, none, none,
    false, false, none, none⟩

def boxW1 : BoxRow := ⟨10, .i 7, "P", 1, some "A"⟩

def boxW2 : BoxRow := ⟨10, .i 8, "Q", 1, some "A"⟩

/-- A well-formed dataset: one finished game with a two-shot player "P" and a
shotless roster player "Q". -/
def exW : Data := ⟨[evW1, evW2, evW3], [boxW1, boxW2]⟩

/-- The season-chart response of `exW` for player "P". -/
def rW9s : SeasonChart :=
  (get_player_season_chart exW 1 "P").toOption.getD ⟨"", ⟨0, 0, 0, 0, 0⟩⟩

/-- The single-game chart statistics of `exW` for player "P". -/
def rW9c : ChartStats :=
  (get_shot_chart exW 10 1 "P").toOption.getD ⟨0, 0, 0, 0⟩

/-- Game 10 with the opponent score column entirely null: the team score is
present on the last row but the opponent score never is. -/
def evC2a : PlayEvent :=
  ⟨10, dNov5, 1, 2, "A", "B", some 40, none, some (.f 7), some 1,
    some "JumpShot", true, true, some 1, some 2⟩

def evC2b : PlayEvent :=
  ⟨10, dNov5, 1, 2, "A", "B", some 75, none, none, none, none,
    false, false, none, none⟩

def boxC2 : BoxRow := ⟨10, .i 7, "P", 1, some "A"⟩

/-- Dataset whose only game has a present team score and an absent opponent
score. -/
def exC2 : Data := ⟨[evC2a, evC2b], [boxC2]⟩

/-- Game 10: a made shot by player 99, who has no box-score row, so the name
merge leaves the shooter name null. -/
def evC3 : PlayEvent :=
  ⟨10, dNov5, 1, 2, "A", "B", some 2, some 0, some (.f 99), some 1,
    some "JumpShot", true, true, some 1, some 2⟩

def boxC3 : BoxRow := ⟨10, .i 7, "R", 1, some "A"⟩

/-- Dataset whose only team shot was taken by a player missing from the
box score. -/
def exC3 : Data := ⟨[evC3], [boxC3]⟩

/-- Game 5, first row: both running scores present. -/
def evC4a : PlayEvent :=
  ⟨5, dNov5, 1, 2, "A", "B", some 10, some 7, none, none, none,
    false, false, none, none⟩

/-- Game 5, last row: the home score cell is null. -/
def evC4b : PlayEvent :=
  ⟨5, dNov5, 1, 2, "A", "B", none, some 9, none, none, none,
    false, false, none, none⟩

/-- Dataset whose only game has a null home score on its last row and a
non-null one earlier. -/
def exC4 : Data := ⟨[evC4a, evC4b], []⟩

/-- C10 dataset, game 10: a made shot by player 7, then the final row. -/
def ev10a : PlayEvent :=
  ⟨10, dNov5, 1, 2, "A", "B", some 2, some 0, some (.f 7), some 1,
    some "JumpShot", true, true, some 1, some 2⟩

def ev10b : PlayEvent :=
  ⟨10, dNov5, 1, 2, "A", "B", some 60, some 50, none, none, none,
    false, false, none, none⟩

/-- C10 dataset, game 11: player 7 is on the box score but takes no shot. -/
def ev11a : PlayEvent :=
  ⟨11, dNov8, 1, 3, "A", "C", some 55, some 58, none, none, none,
    false, false, none, none⟩

def box10 : BoxRow := ⟨10, .i 7, "P", 1, some "A"⟩

def box11 : BoxRow := ⟨11, .i 7, "P", 1, some "A"⟩

/-- Dataset with a player whose box-score rows reference two games, one of
them shotless. -/
def exW10 : Data := ⟨[ev10a, ev10b, ev11a], [box10, box11]⟩

/-- The season-chart response of `exW10` for player "P". -/
def rW10 : SeasonChart :=
  (get_player_season_chart exW10 1 "P").toOption.getD ⟨"", ⟨0, 0, 0, 0, 0⟩⟩

/-- The search result of `exW10` for the query "p". -/
def resW10 : SearchResult := ⟨"P", "A", 1, 1, 1, 1⟩

/-- Claim C2 (code bug evaluation): on a game whose last play-by-play row
carries the queried team's final score but no opponent score, the per-team
game listing emits "TBD" for the game, while `get_player_games` — which
tests only the team score before converting both scores to integers —
reaches the integer conversion of the absent opponent score and raises,
modelled by `none`; the claim requires the score string "TBD" in both
listings. -/
theorem playerGames_score_crash :
    get_games exC2 1 = [⟨10, "11/05/2025", "B", "vs", "TBD"⟩] ∧
      get_player_games exC2 1 "P" = none :=
  ⟨rfl, rfl⟩

/-- Claim C1 (counterexample): requesting the shot chart for a team
identifier absent from the base tables reaches the uncaught index error from
`.iloc[0]`, not the explicit not-found response, refuting the claim that
malformed identifiers never cause a hard failure in the shot-chart
operation. -/
theorem shotChart_unknown_raises :
    get_shot_chart exW 10 999 "Team View" = .error .indexError := rfl

/-- Claim C1 witness: the amended theorem applied to `exW` with the unknown
team identifier 999, and again with the known team 1 but the unknown game
identifier 99. -/
theorem unknownId_spec_witness :
    (get_team_games exW 999 = [] ∧ (get_player_shots exW 10 999).1 = [] ∧
      (get_player_shots exW 10 999).2 = [] ∧
      get_shot_chart exW 10 999 "Team View" = .error .indexError) ∧
    ((get_player_shots exW 99 1).1 = [] ∧ (get_player_shots exW 99 1).2 = [] ∧
      get_shot_chart exW 99 1 "Team View" = .error .indexError) :=
  ⟨(unknownId_spec exW 10 999 "Team View").1 (by decide) (by decide),
    (unknownId_spec exW 99 1 "Team View").2 (by decide) (by decide)⟩

/-- Claim C3 (counterexample): in `exC3` the Team View entry counts the one
shot whose merged shooter name is null, while the only listed roster player
has zero shots, so the Team View counts exceed the sums over the listed
players. -/
theorem teamView_sum_counterexample :
    (get_players exC3 10 1).head?.map (fun e => e.shots) = some 1 ∧
      (((get_players exC3 10 1).drop 1).map (fun e => e.shots)).sum = 0 ∧
      (get_players exC3 10 1).head?.map (fun e => e.makes) = some 1 ∧
      (((get_players exC3 10 1).drop 1).map (fun e => e.makes)).sum = 0 :=
  ⟨rfl, rfl, rfl, rfl⟩

/-- Claim C3 witness: the amended theorem applied to `exW`, where every shot
row carries a roster name. -/
theorem teamView_sum_spec_witness :
    ∃ tv rest, get_players exW 10 1 = tv :: rest ∧
      tv.shots = (rest.map (·.shots)).sum ∧
      tv.makes = (rest.map (·.makes)).sum :=
  teamView_sum_spec exW 10 1 (by decide)

/-- Claim C4 (counterexample): in `exC4` the last row of the only game group
has a null home score, yet the returned record carries the earlier non-null
value 10, so the final scores are not taken from the last row of the
group. -/
theorem getTeamGames_lastRow_counterexample :
    (get_team_games exC4 1).map (fun g => (g.home_score, g.away_score))
        = [(some 10, some 9)] ∧
      (exC4.pbp.filter (teamSide 1)).getLast?.map (fun e => e.home_score)
        = some none :=
  ⟨rfl, rfl⟩

/-- Claim C4 witness: the amended theorem applied to `exW` with team 1,
instantiating the per-record conjuncts at the record of game 10. -/
theorem getTeamGames_spec_witness :
    ((get_team_games exW 1).map (·.game_id)).Perm
        (dedupF ((exW.pbp.filter (teamSide 1)).map (·.game_id))) ∧
      List.Sorted giLe (get_team_games exW 1) ∧
      ((⟨10, dNov5, "A", "B", some 75, some 70, 1, 2⟩ :
          GameInfo).home_team_id = 1 ∨
        (⟨10, dNov5, "A", "B", some 75, some 70, 1, 2⟩ :
          GameInfo).away_team_id = 1) :=
  ⟨(getTeamGames_spec exW 1).1, (getTeamGames_spec exW 1).2.1,
    (getTeamGames_spec exW 1).2.2.1
      ⟨10, dNov5, "A", "B", some 75, some 70, 1, 2⟩ (by decide)⟩

/-- Claim C5 witness: the row-shape theorem applied to the made jump shot of
`exW`. -/
theorem getPlayerShots_rows_spec_witness :
    (⟨evW1, some "P"⟩ : ShotRow).ev.team_id = some 1 ∧
      (⟨evW1, some "P"⟩ : ShotRow).ev.shooting_play = true ∧
      containsCI ((⟨evW1, some "P"⟩ : ShotRow).ev.type_text.getD "")
        "FreeThrow" = false :=
  getPlayerShots_rows_spec exW 10 1 ⟨evW1, some "P"⟩ (by decide)

/-- Claim C6 witness: the join theorem applied to box row `boxW1` (which
stores the identifier as the integer-like `.i 7`) and event `evW1` (which
stores it as the floating `.f 7`). -/
theorem playerJoin_spec_witness :
    (∃ s ∈ mergeNames (eventsOf exW 10) (namesOf exW 10),
        s.ev = evW1 ∧ s.name = some boxW1.athlete_display_name) ∧
      ∀ ev ∈ eventsOf exW 10,
        ∃ s ∈ mergeNames (eventsOf exW 10) (namesOf exW 10), s.ev = ev :=
  playerJoin_spec exW 10 boxW1 evW1 (by decide) rfl (by decide) rfl rfl

/-- Claim C7 witness: the search theorem applied to the query "p" on `exW`,
whose only result is player "P". -/
theorem searchPlayer_spec_witness :
    (∀ t ∈ queryTokens "p",
        substrB t (lowerStr (⟨"P", "A", 1, 1, 2, 1⟩ :
          SearchResult).player_name) = true) ∧
      1 ≤ (⟨"P", "A", 1, 1, 2, 1⟩ : SearchResult).total_games :=
  searchPlayer_spec exW "p" ⟨"P", "A", 1, 1, 2, 1⟩ (by decide)

/-- Claim C8 witness: the player-games theorem applied to `exW`, whose
returned list is the single entry of game 10. -/
theorem getPlayerGames_spec_witness :
    List.Sorted pgLe ((get_player_games exW 1 "P").getD []) ∧
      (((get_player_games exW 1 "P").getD []).map (·.game_id)).Perm
        ((uniqueGids exW 1 "P").filter
          (fun gid => !(playerShotsIn exW gid 1 "P").isEmpty)) :=
  getPlayerGames_spec exW 1 "P" ((get_player_games exW 1 "P").getD []) rfl

/-- Claim C9 witness: the percentage theorem applied to the shotless roster
entry of `get_players`, the season-chart response and the single-game chart
response of `exW`. -/
theorem percentage_spec_witness :
    ((⟨2, "Q", 0, 0, 0⟩ : PlayerEntry) ∈ get_players exW 10 1 ∧
      (((⟨2, "Q", 0, 0, 0⟩ : PlayerEntry).shots = 0 →
          (⟨2, "Q", 0, 0, 0⟩ : PlayerEntry).percentage = 0) ∧
        (0 < (⟨2, "Q", 0, 0, 0⟩ : PlayerEntry).shots →
          (⟨2, "Q", 0, 0, 0⟩ : PlayerEntry).percentage
            = ((⟨2, "Q", 0, 0, 0⟩ : PlayerEntry).makes : ℚ)
              / (⟨2, "Q", 0, 0, 0⟩ : PlayerEntry).shots * 100))) ∧
      (get_player_season_chart exW 1 "P" = .ok rW9s ∧
        ((rW9s.stats.total = 0 → rW9s.stats.percentage = 0) ∧
          (0 < rW9s.stats.total → rW9s.stats.percentage
            = (rW9s.stats.makes : ℚ) / rW9s.stats.total * 100))) ∧
      (get_shot_chart exW 10 1 "P" = .ok rW9c ∧
        ((rW9c.total = 0 → rW9c.percentage = 0) ∧
          (0 < rW9c.total → rW9c.percentage
            = (rW9c.makes : ℚ) / rW9c.total * 100))) :=
  ⟨⟨by decide, percentage_spec.1 exW 10 1 ⟨2, "Q", 0, 0, 0⟩ (by decide)⟩,
    ⟨rfl, percentage_spec.2.1 exW 1 "P" rW9s rfl⟩,
    ⟨rfl, percentage_spec.2.2 exW 10 1 "P" rW9c rfl⟩⟩

/-- Claim C10 witness: the game-count divergence theorem applied to `exW10`,
where the season chart reports 2 games but the search reports 1. -/
theorem seasonVsSearch_games_spec_witness :
    rW10.stats.games = (uniqueGids exW10 1 "P").length ∧
      rW10.title = "P" ++ " - 2025-26 Season Shot Chart ("
        ++ toString (uniqueGids exW10 1 "P").length ++ " games)" ∧
      resW10.total_games < rW10.stats.games :=
  seasonVsSearch_games_spec exW10 "p" "P" 1 rW10 resW10 rfl (by decide)
    rfl rfl 11 (by decide) (by decide)

end CbbShotCharts
